import Mathlib

/-!
Verification of the xgboost learner core (learner-inl.hpp `BoostLearner`
and the legacy `RegRankBoostLearner` from xgboost_regrank.h) against its
natural-language specification.

Shallow embedding conventions:
* a `DMatrix*` pointer is modelled by a numeric identity `id`; the mutable
  `cache_learner_ptr_` field of a matrix is a field of `MatRef`;
* `float` quantities are modelled by `ℚ` (and by `ℝ` where the code takes a
  real logarithm);
* fatal `utils::Assert` / `utils::Check` failures are modelled by
  `Except.error`; functions that never abort are total.
-/

namespace XGB

/-- A feature-matrix handle: its pointer identity, current row/column counts,
and the matrix's `cache_learner_ptr_` back-reference (the id of the learner
that registered it, if any). -/
structure MatRef where
  id : Nat
  num_row : Nat
  num_col : Nat
  cache_learner_ptr : Option Nat
deriving DecidableEq, Repr

/-- Struct `CacheEntry` of both learner variants: the registered matrix (by
identity), the assigned buffer offset, and the row count at registration. -/
structure CacheEntry where
  mat_ : Nat
  buffer_offset_ : Nat
  num_row_ : Nat
deriving DecidableEq, Repr

/-- State touched by `SetCacheData`: the cache list, `mparam.num_feature`
and the `num_pbuffer` parameter forwarded to the booster. -/
structure CacheState where
  cache_ : List CacheEntry
  num_feature : Nat
  num_pbuffer : Nat
deriving DecidableEq, Repr

/-- The registration loop of `SetCacheData` (both variants, lines 50-61 of
learner-inl.hpp and 59-70 of xgboost_regrank.h): walk `mats`, skip a matrix
whose pointer already occurred earlier in the list (`prev`), otherwise
append a cache entry at the running `buf` offset; also accumulate the
total buffer size and the max column count.  Returns
(entries, buffer_size, num_feature). -/
def setCacheLoop (prev : List Nat) (buf nf : Nat) :
    List MatRef → List CacheEntry × Nat × Nat
  | [] => ([], buf, nf)
  | m :: rest =>
    if m.id ∈ prev then
      setCacheLoop (m.id :: prev) buf nf rest
    else
      let r := setCacheLoop (m.id :: prev) (buf + m.num_row) (max nf m.num_col) rest
      (⟨m.id, buf, m.num_row⟩ :: r.1, r.2)

/-- Method `SetCacheData(mats)`: asserts the cache is empty ("can only call cache
data once"), registers the distinct matrices in order, and forwards
`bst:num_feature` (only when it grew) and `num_pbuffer` to the booster. -/
def SetCacheData (st : CacheState) (mats : List MatRef) : Except String CacheState :=
  if st.cache_.length = 0 then
    let r := setCacheLoop [] 0 0 mats
    .ok { cache_ := r.1,
          num_feature := max st.num_feature r.2.2,
          num_pbuffer := r.2.1 }
  else
    .error "can only call cache data once"

/-- Method `FindBufferOffset(mat)` (learner-inl.hpp lines 280-289, xgboost_regrank.h
lines 404-416): scan the cache for an entry whose matrix is `mat` and whose
back-reference still points at this learner (`self`); return its offset when
the recorded row count equals the matrix's current row count, otherwise emit
a (non-fatal) warning and keep scanning; return `-1` ("NotCached") when no
entry qualifies.  Total: it never aborts. -/
def FindBufferOffset (self : Nat) (cache : List CacheEntry) (mat : MatRef) : Int :=
  match cache with
  | [] => -1
  | e :: rest =>
    if e.mat_ = mat.id ∧ mat.cache_learner_ptr = some self then
      if e.num_row_ = mat.num_row then (e.buffer_offset_ : Int)
      else FindBufferOffset self rest mat
    else FindBufferOffset self rest mat

/-- The matrix ids registered by the loop: distinct ids of `mats`, in order
of first occurrence, skipping those already in `prev`. -/
def firstOccsFrom (prev : List Nat) : List Nat → List Nat
  | [] => []
  | x :: xs =>
    if x ∈ prev then firstOccsFrom (x :: prev) xs
    else x :: firstOccsFrom (x :: prev) xs

/-- Entry offsets laid out contiguously from base `buf`: each entry sits at
the running offset and advances it by its row count. -/
def contiguousFrom (buf : Nat) : List CacheEntry → Prop
  | [] => True
  | e :: rest => e.buffer_offset_ = buf ∧ contiguousFrom (buf + e.num_row_) rest

/-! ### New-generation learner (learner-inl.hpp): model persistence -/

/-- Struct `BoostLearner::ModelParam` (learner-inl.hpp lines 221-247): global bias,
feature count, class count and 32 reserved words.  `float` is modelled by
`ℚ`. -/
structure ModelParam where
  base_score : ℚ
  num_feature : Nat
  num_class : Int
  reserved : List Int
deriving DecidableEq, Repr

/-- One record of the binary model stream.  `fi.Read(&mparam, sizeof)` moves
a raw `ModelParam` block, `fi.Read(&name)` a length-prefixed string, and the
booster's own `SaveModel`/`LoadModel` move its self-described state, which
the Learner treats as an opaque blob (modelled from the spec: the concrete
booster is not part of this core). -/
inductive StreamItem where
  | blob (p : ModelParam)
  | str (s : String)
  | gbm (g : List Int)
deriving DecidableEq, Repr

/-- State of `BoostLearner` relevant to persistence and raw prediction:
model parameters, objective/booster names, the booster instance (`none`
until `InitObjGBM` runs; afterwards its opaque model state), and the
prediction cache. -/
structure BoostLearner where
  mparam : ModelParam
  name_obj_ : String
  name_gbm_ : String
  gbm_ : Option (List Int)
  cache_ : List CacheEntry
deriving DecidableEq, Repr

/-- A freshly constructed `BoostLearner` (constructor at lines 26-31 plus the
`ModelParam` constructor): default names, no plugin instances, empty
cache. -/
def freshBoostLearner : BoostLearner :=
  { mparam := ⟨1/2, 0, 0, List.replicate 32 0⟩,
    name_obj_ := "reg:linear",
    name_gbm_ := "gbtree",
    gbm_ := none,
    cache_ := [] }

/-- Method `BoostLearner::SaveModel` (lines 121-126): write the raw `ModelParam`
block, the two name strings, then delegate to the booster.  Requires an
instantiated booster (`none` gives no stream). -/
def SaveModel (L : BoostLearner) : Option (List StreamItem) :=
  L.gbm_.map fun g => [.blob L.mparam, .str L.name_obj_, .str L.name_gbm_, .gbm g]

/-- Method `BoostLearner::LoadModel` (lines 101-111): read the `ModelParam` block
and the two names ("wrong model format" on a layout mismatch), re-instantiate
the plugins from the read names, then delegate loading the booster state.
The booster state after loading is exactly the state read from the stream. -/
def LoadModel (L : BoostLearner) (s : List StreamItem) : Except String BoostLearner :=
  match s with
  | .blob p :: .str o :: .str b :: .gbm g :: _ =>
    .ok { L with mparam := p, name_obj_ := o, name_gbm_ := b, gbm_ := some g }
  | _ => .error "BoostLearner: wrong model format"

/-- Method `BoostLearner::InitModel` (lines 91-96): instantiate the plugins if not
yet done (the fresh booster's `InitModel` state is `ginit`), then convert
`base_score` through the objective's `ProbToMargin` (`ptm`, keyed by the
objective name, modelled from the spec as the objective plugin is not part
of this core). -/
def InitModel (ptm : String → ℚ → ℚ) (ginit : List Int) (L : BoostLearner) : BoostLearner :=
  let L1 := if L.gbm_.isSome then L else { L with gbm_ := some ginit }
  { L1 with mparam := { L1.mparam with base_score := ptm L1.name_obj_ L1.mparam.base_score } }

/-- Method `BoostLearner::PredictRaw` (lines 214-218): delegate to
`gbm_->Predict(data.fmat, FindBufferOffset(data), data.info, out_preds)`.
The booster's predict function `gp` is a parameter (modelled from the spec:
the concrete booster is not part of this core); `self` is this learner's
identity. -/
def PredictRaw (gp : List Int → MatRef → Int → List ℚ) (self : Nat)
    (L : BoostLearner) (mat : MatRef) : Option (List ℚ) :=
  L.gbm_.map fun g => gp g mat (FindBufferOffset self L.cache_ mat)

/-! ### Legacy learner (xgboost_regrank.h `RegRankBoostLearner`) -/

/-- One `base_gbm.DoBoost(tgrad, thess, train.data, root_index, group,
buffer_offset)` invocation issued by `UpdateOneIter`. -/
structure BoostCall where
  grad : List ℚ
  hess : List ℚ
  bst_group : Nat
  buffer_offset : Int
deriving DecidableEq, Repr

/-- The boosting dispatch of `RegRankBoostLearner::UpdateOneIter`
(xgboost_regrank.h lines 194-205), as the list of `DoBoost` calls made: a
gradient vector the size of the training set is boosted once for group 0;
otherwise it must be `rows * ngroup` long ("BUG: UpdateOneIter: mclass") and
group `g` is boosted on the contiguous slice `[g*rows, (g+1)*rows)` of the
gradient and hessian vectors, in group order, each call against the same
feature data and the matrix's buffer offset. -/
def UpdateOneIterCalls (self : Nat) (cache : List CacheEntry) (train : MatRef)
    (ngroup : Nat) (grad hess : List ℚ) : Except String (List BoostCall) :=
  let boff := FindBufferOffset self cache train
  if grad.length = train.num_row then
    .ok [⟨grad, hess, 0, boff⟩]
  else if grad.length = train.num_row * ngroup then
    .ok ((List.range ngroup).map fun g =>
      ⟨(grad.drop (g * train.num_row)).take train.num_row,
       (hess.drop (g * train.num_row)).take train.num_row, g, boff⟩)
  else
    .error "BUG: UpdateOneIter: mclass"

/-- Legacy `ModelParam` (xgboost_regrank.h lines 343-391): the base-score
field is parametric in its number type so that `AdjustBase`, which takes a
real logarithm, can be stated over `ℝ` while the rest of the development
uses `ℚ`. -/
structure RegRankModelParam (α : Type) where
  base_score : α
  loss_type : Int
  num_feature : Int
  num_class : Int
  clear_period : Int
  reserved : List Int
deriving DecidableEq

/-- Method `ModelParam::AdjustBase` (lines 380-390): default `loss_type = -1` to 0
for `"reg:linear"` and to 1 otherwise; for loss types 1, 2, 3 assert the
"sigmoid range constrain" `0 < base_score < 1` and replace `base_score` by
`-log(1/base_score - 1)`; other loss types leave `base_score` unchanged.
`float`/`logf` are modelled by `ℝ`/`Real.log`.  The loss-type defaulting
(lines 382-385) is split out as `adjustedLossType`. -/
def adjustedLossType (obj : String) (p : RegRankModelParam ℝ) : Int :=
  if p.loss_type = -1 then (if obj = "reg:linear" then 0 else 1) else p.loss_type

/-- The remainder of `ModelParam::AdjustBase` (lines 386-389): see
`adjustedLossType`. -/
noncomputable def AdjustBase (obj : String) (p : RegRankModelParam ℝ) :
    Except String (RegRankModelParam ℝ) :=
  if adjustedLossType obj p = 1 ∨ adjustedLossType obj p = 2 ∨ adjustedLossType obj p = 3 then
    if 0 < p.base_score ∧ p.base_score < 1 then
      .ok { p with loss_type := adjustedLossType obj p,
                   base_score := -Real.log (1 / p.base_score - 1) }
    else
      .error "sigmoid range constrain"
  else
    .ok { p with loss_type := adjustedLossType obj p }

/-- State of `RegRankBoostLearner` relevant to the claims: the learner's
identity, model parameters, objective name, the booster's ensemble (modelled
from the spec: `GBMPP` is not part of this core — its state is the ordered
list of ensemble members, identified abstractly) and the prediction
cache. -/
structure RegRankLearner where
  selfId : Nat
  mparam : RegRankModelParam ℚ
  name_obj_ : String
  ensemble : List Nat
  cache_ : List CacheEntry
deriving DecidableEq

/-- Modelled from the spec: `GBMPP` (the legacy gradient booster) is not
under src/.  Per-row raw margin of the ensemble: the sum of the contributions
of its members (`mp` is the pluggable per-member predictor); the
prediction-buffer slot is a caching hint only and never changes the value. -/
def gbmPredictRow (mp : Nat → MatRef → Nat → ℚ) (ens : List Nat)
    (mat : MatRef) (j : Nat) : ℚ :=
  (ens.map fun m => mp m mat j).sum

/-- Modelled from the spec: `GBMPP::DelteBooster` discards the most recently
added ensemble member. -/
def DelteBooster (ens : List Nat) : List Nat := ens.dropLast

/-- Legacy `PredictRaw` at a single booster group (xgboost_regrank.h lines
303-340): per row, `base_score + base_gbm.Predict(...)`. -/
def RegRankPredictRaw (mp : Nat → MatRef → Nat → ℚ) (st : RegRankLearner)
    (mat : MatRef) : List ℚ :=
  (List.range mat.num_row).map fun j =>
    st.mparam.base_score + gbmPredictRow mp st.ensemble mat j

/-- Legacy `Predict` (lines 252-255): raw prediction followed by the
objective's `PredTransform` (`pt`, pluggable). -/
def RegRankPredict (mp : Nat → MatRef → Nat → ℚ) (pt : List ℚ → List ℚ)
    (st : RegRankLearner) (mat : MatRef) : List ℚ :=
  pt (RegRankPredictRaw mp st mat)

/-- Observable steps of `UpdateInteract`, in order. -/
inductive InteractEvent where
  | interactPredict (matId : Nat)
  | getGradient
  | doBoost
  | rePredict (matId : Nat)
deriving DecidableEq, Repr

/-- Method `RegRankBoostLearner::UpdateInteract` (lines 262-278): re-predict every
cached matrix (`InteractPredict` asserts "interact mode must cache training
data", i.e. a nonnegative buffer offset, for each); on `"remove"`, call
`DelteBooster` and return at once; on any other action compute gradients on
the current training matrix, grow one ensemble increment (`newMember`) via
`DoBoost`, and re-predict every cached matrix (`InteractRePredict`).  `env`
dereferences a cache entry's stored matrix pointer. -/
def UpdateInteract (env : Nat → MatRef) (newMember : Nat) (st : RegRankLearner)
    (action : String) : Except String (RegRankLearner × List InteractEvent) :=
  if st.cache_.all (fun e => 0 ≤ FindBufferOffset st.selfId st.cache_ (env e.mat_)) then
    let evs0 := st.cache_.map fun e => InteractEvent.interactPredict e.mat_
    if action = "remove" then
      .ok ({ st with ensemble := DelteBooster st.ensemble }, evs0)
    else
      .ok ({ st with ensemble := st.ensemble ++ [newMember] },
        evs0 ++ [.getGradient, .doBoost] ++ st.cache_.map fun e => .rePredict e.mat_)
  else
    .error "interact mode must cache training data"

/-- Method `RegRankBoostLearner::Evaluate` (lines 236-245): substitute the
objective's default metric for `"auto"`; look the metric up in the
evaluation registry (`evalCreate`, modelled from the spec: the registry is
not part of this core — `Create` returns a scorer or not-found); on
not-found return the empty-name sentinel `("", 0)`; otherwise score the
transformed predictions. -/
def RegRankEvaluate (mp : Nat → MatRef → Nat → ℚ) (pt : List ℚ → List ℚ)
    (evalCreate : String → Option (List ℚ → MatRef → ℚ))
    (defaultMetric : String) (st : RegRankLearner) (mat : MatRef)
    (metric : String) : String × ℚ :=
  let m := if metric = "auto" then defaultMetric else metric
  match evalCreate m with
  | none => ("", 0)
  | some ev => (m, ev (RegRankPredict mp pt st mat) mat)

/-- Objective-name selection of `RegRankBoostLearner::InitTrainer` (lines
104-117): with a nonzero `num_class`, an objective that is neither
`"multi:softmax"` nor `"multi:softprob"` is overridden to
`"multi:softmax"`; otherwise the configured name is kept. -/
def InitTrainerObjName (num_class : Int) (name_obj : String) : String :=
  if num_class ≠ 0 then
    if name_obj ≠ "multi:softmax" ∧ name_obj ≠ "multi:softprob" then "multi:softmax"
    else name_obj
  else name_obj

/-- Method `RegRankBoostLearner::InitTrainer` on the modelled state: the objective
is instantiated from the (possibly overridden) name. -/
def InitTrainer (st : RegRankLearner) : RegRankLearner :=
  { st with name_obj_ := InitTrainerObjName st.mparam.num_class st.name_obj_ }

/-! ### Structural lemmas about the registration loop -/

theorem setCacheLoop_ids (prev : List Nat) (buf nf : Nat) (mats : List MatRef) :
    (setCacheLoop prev buf nf mats).1.map (·.mat_) =
      firstOccsFrom prev (mats.map (·.id)) := by
  induction mats generalizing prev buf nf with
  | nil => rfl
  | cons m rest ih =>
    simp only [setCacheLoop, firstOccsFrom, List.map_cons]
    by_cases h : m.id ∈ prev
    · simp [h, ih]
    · simp [h, ih]

theorem firstOccsFrom_not_mem_prev (prev : List Nat) (l : List Nat) :
    ∀ x ∈ firstOccsFrom prev l, x ∉ prev := by
  induction l generalizing prev with
  | nil => intro x hx; simp [firstOccsFrom] at hx
  | cons a l ih =>
    intro x hx
    simp only [firstOccsFrom] at hx
    by_cases ha : a ∈ prev
    · simp only [if_pos ha] at hx
      exact fun hp => ih (a :: prev) x hx (List.mem_cons_of_mem a hp)
    · simp only [if_neg ha, List.mem_cons] at hx
      rcases hx with rfl | hx
      · exact ha
      · exact fun hp => ih (a :: prev) x hx (List.mem_cons_of_mem a hp)

theorem firstOccsFrom_nodup (prev : List Nat) (l : List Nat) :
    (firstOccsFrom prev l).Nodup := by
  induction l generalizing prev with
  | nil => simp [firstOccsFrom]
  | cons a l ih =>
    simp only [firstOccsFrom]
    by_cases ha : a ∈ prev
    · simpa [ha] using ih (a :: prev)
    · simp only [if_neg ha, List.nodup_cons]
      refine ⟨?_, ih (a :: prev)⟩
      intro hmem
      exact firstOccsFrom_not_mem_prev (a :: prev) l a hmem (List.mem_cons_self a prev)

theorem setCacheLoop_contiguous (prev : List Nat) (buf nf : Nat) (mats : List MatRef) :
    contiguousFrom buf (setCacheLoop prev buf nf mats).1 := by
  induction mats generalizing prev buf nf with
  | nil => trivial
  | cons m rest ih =>
    simp only [setCacheLoop]
    by_cases hd : m.id ∈ prev
    · simpa [hd] using ih (m.id :: prev) buf nf
    · simp only [if_neg hd]
      exact ⟨rfl, ih (m.id :: prev) (buf + m.num_row) (max nf m.num_col)⟩

/-- A contiguous cache list has offsets equal to the base plus the partial
sums of the preceding entries' row counts. -/
theorem contiguousFrom_get (l : List CacheEntry) :
    ∀ (buf : Nat), contiguousFrom buf l →
      ∀ k (h : k < l.length),
        (l.get ⟨k, h⟩).buffer_offset_ =
          buf + (((l.take k).map (·.num_row_)).sum) := by
  induction l with
  | nil => intro buf _ k h; simp at h
  | cons e rest ih =>
    intro buf hc k h
    obtain ⟨h0, hrest⟩ := hc
    match k with
    | 0 => simpa using h0
    | k + 1 =>
      simp only [List.get_cons_succ, List.take_succ_cons, List.map_cons, List.sum_cons]
      rw [ih (buf + e.num_row_) hrest k (Nat.lt_of_succ_lt_succ h)]
      ring

/-- The buffer size returned by the loop is `buf` plus the total of the
registered row counts. -/
theorem setCacheLoop_bufsize (prev : List Nat) (buf nf : Nat) (mats : List MatRef) :
    (setCacheLoop prev buf nf mats).2.1 =
      buf + (((setCacheLoop prev buf nf mats).1.map (·.num_row_)).sum) := by
  induction mats generalizing prev buf nf with
  | nil => simp [setCacheLoop]
  | cons m rest ih =>
    simp only [setCacheLoop]
    by_cases hd : m.id ∈ prev
    · simp only [if_pos hd]
      exact ih (m.id :: prev) buf nf
    · simp only [if_neg hd, List.map_cons, List.sum_cons]
      rw [ih (m.id :: prev) (buf + m.num_row) (max nf m.num_col)]
      ring

/-- Every entry produced by the loop records some input matrix's id and its
row count at registration. -/
theorem setCacheLoop_entry_src (prev : List Nat) (buf nf : Nat) (mats : List MatRef) :
    ∀ e ∈ (setCacheLoop prev buf nf mats).1,
      ∃ m ∈ mats, e.mat_ = m.id ∧ e.num_row_ = m.num_row := by
  induction mats generalizing prev buf nf with
  | nil => intro e he; simp [setCacheLoop] at he
  | cons m rest ih =>
    intro e he
    simp only [setCacheLoop] at he
    by_cases hd : m.id ∈ prev
    · simp only [if_pos hd] at he
      obtain ⟨m', hm', h1, h2⟩ := ih (m.id :: prev) buf nf e he
      exact ⟨m', List.mem_cons_of_mem m hm', h1, h2⟩
    · simp only [if_neg hd, List.mem_cons] at he
      rcases he with rfl | he
      · exact ⟨m, List.mem_cons_self m rest, rfl, rfl⟩
      · obtain ⟨m', hm', h1, h2⟩ :=
          ih (m.id :: prev) (buf + m.num_row) (max nf m.num_col) e he
        exact ⟨m', List.mem_cons_of_mem m hm', h1, h2⟩

/-- Every input matrix whose id is not in `prev` ends up registered. -/
theorem setCacheLoop_covers (prev : List Nat) (buf nf : Nat) (mats : List MatRef) :
    ∀ m ∈ mats, m.id ∉ prev →
      ∃ e ∈ (setCacheLoop prev buf nf mats).1, e.mat_ = m.id := by
  induction mats generalizing prev buf nf with
  | nil => intro m hm; simp at hm
  | cons a rest ih =>
    intro m hm hp
    simp only [List.mem_cons] at hm
    simp only [setCacheLoop]
    by_cases hd : a.id ∈ prev
    · simp only [if_pos hd]
      rcases hm with rfl | hm
      · exact absurd hd hp
      · exact ih (a.id :: prev) buf nf m hm
          (by simp only [List.mem_cons]; push_neg; exact ⟨fun h => hp (h ▸ hd), hp⟩)
    · simp only [if_neg hd]
      rcases hm with rfl | hm
      · exact ⟨⟨m.id, buf, m.num_row⟩, List.mem_cons_self _ _, rfl⟩
      · by_cases hid : m.id = a.id
        · exact ⟨⟨a.id, buf, a.num_row⟩, List.mem_cons_self _ _, hid.symm⟩
        · obtain ⟨e, he, hk⟩ := ih (a.id :: prev) (buf + a.num_row) (max nf a.num_col) m hm
            (by simp only [List.mem_cons]; push_neg; exact ⟨hid, hp⟩)
          exact ⟨e, List.mem_cons_of_mem _ he, hk⟩

/-- Scanning the cache for a matrix that is registered nowhere in it yields
`-1`. -/
theorem findBufferOffset_of_not_mem (self : Nat) (cache : List CacheEntry) (mat : MatRef)
    (h : mat.id ∉ cache.map (·.mat_)) :
    FindBufferOffset self cache mat = -1 := by
  induction cache with
  | nil => rfl
  | cons e rest ih =>
    simp only [List.map_cons, List.mem_cons] at h
    push_neg at h
    simp only [FindBufferOffset]
    rw [if_neg (by intro hc; exact h.1 hc.1.symm)]
    exact ih h.2

/-- If a matrix is registered (its id occurs in the cache, at most once) but
its recorded row count differs from its current one, the scan falls through
to `-1`. -/
theorem findBufferOffset_stale (self : Nat) (cache : List CacheEntry) (mat : MatRef)
    (hnd : (cache.map (·.mat_)).Nodup) (e : CacheEntry) (he : e ∈ cache)
    (hid : e.mat_ = mat.id) (hrow : e.num_row_ ≠ mat.num_row) :
    FindBufferOffset self cache mat = -1 := by
  induction cache with
  | nil => cases he
  | cons a rest ih =>
    simp only [List.map_cons, List.nodup_cons] at hnd
    obtain ⟨hna, hndr⟩ := hnd
    rcases List.mem_cons.mp he with rfl | he'
    · have hnm : mat.id ∉ rest.map (·.mat_) := by rw [← hid]; exact hna
      simp only [FindBufferOffset]
      by_cases hc : e.mat_ = mat.id ∧ mat.cache_learner_ptr = some self
      · rw [if_pos hc, if_neg hrow]
        exact findBufferOffset_of_not_mem self rest mat hnm
      · rw [if_neg hc]
        exact findBufferOffset_of_not_mem self rest mat hnm
    · have hmem : mat.id ∈ rest.map (·.mat_) := by
        rw [← hid]; exact List.mem_map_of_mem _ he'
      have hane : ¬(a.mat_ = mat.id ∧ mat.cache_learner_ptr = some self) := by
        intro hc; exact hna (hc.1 ▸ hmem)
      simp only [FindBufferOffset]
      rw [if_neg hane]
      exact ih hndr he'

/-- If a matrix is registered (at most once), its back-reference still names
this learner, and its row count is unchanged, the scan returns the recorded
offset. -/
theorem findBufferOffset_hit (self : Nat) (cache : List CacheEntry) (mat : MatRef)
    (hnd : (cache.map (·.mat_)).Nodup) (e : CacheEntry) (he : e ∈ cache)
    (hid : e.mat_ = mat.id) (hptr : mat.cache_learner_ptr = some self)
    (hrow : e.num_row_ = mat.num_row) :
    FindBufferOffset self cache mat = (e.buffer_offset_ : Int) := by
  induction cache with
  | nil => cases he
  | cons a rest ih =>
    simp only [List.map_cons, List.nodup_cons] at hnd
    obtain ⟨hna, hndr⟩ := hnd
    rcases List.mem_cons.mp he with rfl | he'
    · simp only [FindBufferOffset]
      rw [if_pos ⟨hid, hptr⟩, if_pos hrow]
    · have hmem : mat.id ∈ rest.map (·.mat_) := by
        rw [← hid]; exact List.mem_map_of_mem _ he'
      have hane : ¬(a.mat_ = mat.id ∧ mat.cache_learner_ptr = some self) := by
        intro hc; exact hna (hc.1 ▸ hmem)
      simp only [FindBufferOffset]
      rw [if_neg hane]
      exact ih hndr he'

/-- A scan result other than `-1` comes from an entry whose matrix,
back-reference and recorded row count all match. -/
theorem findBufferOffset_sound (self : Nat) (cache : List CacheEntry) (mat : MatRef) :
    ∀ b : Int, FindBufferOffset self cache mat = b → b ≠ -1 →
      ∃ e ∈ cache, e.mat_ = mat.id ∧ mat.cache_learner_ptr = some self ∧
        e.num_row_ = mat.num_row ∧ b = (e.buffer_offset_ : Int) := by
  induction cache with
  | nil => intro b hb hne; exact absurd hb.symm hne
  | cons a rest ih =>
    intro b hb hne
    simp only [FindBufferOffset] at hb
    by_cases hc : a.mat_ = mat.id ∧ mat.cache_learner_ptr = some self
    · rw [if_pos hc] at hb
      by_cases hrow : a.num_row_ = mat.num_row
      · rw [if_pos hrow] at hb
        exact ⟨a, List.mem_cons_self a rest, hc.1, hc.2, hrow, hb.symm⟩
      · rw [if_neg hrow] at hb
        obtain ⟨e, he, h⟩ := ih b hb hne
        exact ⟨e, List.mem_cons_of_mem a he, h⟩
    · rw [if_neg hc] at hb
      obtain ⟨e, he, h⟩ := ih b hb hne
      exact ⟨e, List.mem_cons_of_mem a he, h⟩

/-! ### The claims -/

/-- C2: after `SetCacheData` on any list of matrices (from an empty cache),
the cache holds one entry per distinct matrix in first-occurrence
(registration) order — a repeated occurrence of the same matrix pointer adds
no new entry — each entry records its matrix's row count, entry `k`'s buffer
offset is the sum of the row counts of the entries before it (so the offset
ranges form a contiguous non-overlapping partition of
`[0, total_rows)`), and the total buffer size passed to the booster is the
sum of all registered row counts. -/
theorem setCacheData_partition (st : CacheState) (mats : List MatRef)
    (hempty : st.cache_ = []) (st' : CacheState)
    (hok : SetCacheData st mats = .ok st') :
    (st'.cache_.map (·.mat_) = firstOccsFrom [] (mats.map (·.id))) ∧
    (st'.cache_.map (·.mat_)).Nodup ∧
    (∀ e ∈ st'.cache_, ∃ m ∈ mats, e.mat_ = m.id ∧ e.num_row_ = m.num_row) ∧
    (∀ m ∈ mats, ∃ e ∈ st'.cache_, e.mat_ = m.id) ∧
    (∀ k (h : k < st'.cache_.length),
      (st'.cache_.get ⟨k, h⟩).buffer_offset_ =
        ((st'.cache_.take k).map (·.num_row_)).sum) ∧
    st'.num_pbuffer = (st'.cache_.map (·.num_row_)).sum := by
  unfold SetCacheData at hok
  rw [hempty] at hok
  simp only [List.length_nil, if_pos rfl] at hok
  injection hok with hok
  subst hok
  refine ⟨setCacheLoop_ids [] 0 0 mats, ?_, setCacheLoop_entry_src [] 0 0 mats, ?_, ?_, ?_⟩
  · rw [setCacheLoop_ids]
    exact firstOccsFrom_nodup [] _
  · intro m hm
    exact setCacheLoop_covers [] 0 0 mats m hm (by simp)
  · intro k h
    simpa using contiguousFrom_get _ 0 (setCacheLoop_contiguous [] 0 0 mats) k h
  · simpa using setCacheLoop_bufsize [] 0 0 mats

theorem setCacheData_partition_witness :
    (⟨[], 0, 0⟩ : CacheState).cache_ = [] ∧
    SetCacheData ⟨[], 0, 0⟩
        [⟨1, 50, 10, none⟩, ⟨2, 30, 5, none⟩, ⟨1, 50, 10, none⟩] =
      .ok ⟨[⟨1, 0, 50⟩, ⟨2, 50, 30⟩], 10, 80⟩ ∧
    (⟨[⟨1, 0, 50⟩, ⟨2, 50, 30⟩], 10, 80⟩ : CacheState).num_pbuffer =
      (([⟨1, 0, 50⟩, ⟨2, 50, 30⟩] : List CacheEntry).map (·.num_row_)).sum :=
  ⟨rfl, rfl,
   (setCacheData_partition ⟨[], 0, 0⟩
      [⟨1, 50, 10, none⟩, ⟨2, 30, 5, none⟩, ⟨1, 50, 10, none⟩] rfl
      ⟨[⟨1, 0, 50⟩, ⟨2, 50, 30⟩], 10, 80⟩ rfl).2.2.2.2.2⟩

/-- C6: a second `SetCacheData` call while cache entries already exist hits
the fatal `utils::Assert` "can only call cache data once" and never yields a
new state (no entries are added). -/
theorem setCacheData_once (st : CacheState) (mats : List MatRef)
    (h : st.cache_ ≠ []) :
    SetCacheData st mats = .error "can only call cache data once" ∧
    ∀ st', SetCacheData st mats ≠ .ok st' := by
  have hlen : ¬st.cache_.length = 0 := by
    simpa [List.length_eq_zero] using h
  have herr : SetCacheData st mats = .error "can only call cache data once" := by
    unfold SetCacheData
    rw [if_neg hlen]
  exact ⟨herr, fun st' hok => by rw [herr] at hok; cases hok⟩

theorem setCacheData_once_witness :
    (⟨[⟨1, 0, 50⟩], 10, 50⟩ : CacheState).cache_ ≠ [] ∧
    SetCacheData ⟨[⟨1, 0, 50⟩], 10, 50⟩ [⟨2, 30, 5, none⟩] =
      .error "can only call cache data once" :=
  ⟨by decide,
   (setCacheData_once ⟨[⟨1, 0, 50⟩], 10, 50⟩ [⟨2, 30, 5, none⟩] (by decide)).1⟩

/-- C4: `FindBufferOffset` returns `-1` (NotCached) for a matrix that was
never registered; it returns `-1` — after at most a non-fatal warning, the
function being total — when the matrix is registered but its current row
count differs from the one recorded at registration; a result other than
`-1` is the registered offset of an entry whose row count matches (and whose
back-reference names this learner), and such an entry's offset is indeed
returned.  The `Nodup` hypothesis holds for every cache built by
`SetCacheData`, which registers each distinct matrix once. -/
theorem findBufferOffset_spec (self : Nat) (cache : List CacheEntry) (mat : MatRef)
    (hnd : (cache.map (·.mat_)).Nodup) :
    (mat.id ∉ cache.map (·.mat_) → FindBufferOffset self cache mat = -1) ∧
    (∀ e ∈ cache, e.mat_ = mat.id → e.num_row_ ≠ mat.num_row →
      FindBufferOffset self cache mat = -1) ∧
    (∀ e ∈ cache, e.mat_ = mat.id → mat.cache_learner_ptr = some self →
      e.num_row_ = mat.num_row →
      FindBufferOffset self cache mat = (e.buffer_offset_ : Int)) ∧
    (∀ b : Int, FindBufferOffset self cache mat = b → b ≠ -1 →
      ∃ e ∈ cache, e.mat_ = mat.id ∧ mat.cache_learner_ptr = some self ∧
        e.num_row_ = mat.num_row ∧ b = (e.buffer_offset_ : Int)) :=
  ⟨findBufferOffset_of_not_mem self cache mat,
   fun e he hid hrow => findBufferOffset_stale self cache mat hnd e he hid hrow,
   fun e he hid hptr hrow => findBufferOffset_hit self cache mat hnd e he hid hptr hrow,
   findBufferOffset_sound self cache mat⟩

theorem findBufferOffset_spec_witness :
    (([⟨1, 0, 50⟩, ⟨2, 50, 30⟩] : List CacheEntry).map (·.mat_)).Nodup ∧
    FindBufferOffset 7 [⟨1, 0, 50⟩, ⟨2, 50, 30⟩] ⟨2, 30, 5, some 7⟩ =
      ((50 : Nat) : Int) ∧
    FindBufferOffset 7 [⟨1, 0, 50⟩, ⟨2, 50, 30⟩] ⟨2, 31, 5, some 7⟩ = -1 :=
  ⟨by decide,
   (findBufferOffset_spec 7 [⟨1, 0, 50⟩, ⟨2, 50, 30⟩] ⟨2, 30, 5, some 7⟩
      (by decide)).2.2.1 ⟨2, 50, 30⟩ (by decide) rfl rfl rfl,
   (findBufferOffset_spec 7 [⟨1, 0, 50⟩, ⟨2, 50, 30⟩] ⟨2, 31, 5, some 7⟩
      (by decide)).2.1 ⟨2, 50, 30⟩ (by decide) rfl (by decide)⟩

/-- C1: `SaveModel` followed by `LoadModel` on a fresh learner reproduces the
model parameters, the plugin names and the booster state exactly, so raw
(untransformed) predictions on any fixed matrix coincide with those of the
original learner — for any booster predict function whose value does not
depend on the prediction-buffer slot (the cache is a reuse hint only; a `-1`
slot means full recomputation of the same value). -/
theorem save_load_roundtrip_predictions
    (gp : List Int → MatRef → Int → List ℚ)
    (hgp : ∀ g m b b', gp g m b = gp g m b')
    (L : BoostLearner) (g : List Int) (hg : L.gbm_ = some g)
    (s : List StreamItem) (hs : SaveModel L = some s)
    (F' : BoostLearner) (hF : LoadModel freshBoostLearner s = .ok F')
    (self self' : Nat) (mat : MatRef) :
    PredictRaw gp self' F' mat = PredictRaw gp self L mat := by
  unfold SaveModel at hs
  rw [hg] at hs
  simp only [Option.map_some'] at hs
  injection hs with hs
  subst hs
  unfold LoadModel at hF
  injection hF with hF
  subst hF
  unfold PredictRaw
  rw [hg]
  simp only [Option.map_some']
  exact congrArg some (hgp g mat _ _)

theorem save_load_roundtrip_predictions_witness :
    (∀ (g : List Int) (m : MatRef) (b b' : Int),
      (fun (_ : List Int) (_ : MatRef) (_ : Int) => ([] : List ℚ)) g m b =
        (fun (_ : List Int) (_ : MatRef) (_ : Int) => ([] : List ℚ)) g m b') ∧
    ({ freshBoostLearner with gbm_ := some [3] } : BoostLearner).gbm_ = some [3] ∧
    SaveModel { freshBoostLearner with gbm_ := some [3] } =
      some [.blob ⟨1/2, 0, 0, List.replicate 32 0⟩, .str "reg:linear",
            .str "gbtree", .gbm [3]] ∧
    LoadModel freshBoostLearner
        [.blob ⟨1/2, 0, 0, List.replicate 32 0⟩, .str "reg:linear",
         .str "gbtree", .gbm [3]] =
      .ok { freshBoostLearner with gbm_ := some [3] } ∧
    PredictRaw (fun _ _ _ => ([] : List ℚ)) 0
        { freshBoostLearner with gbm_ := some [3] } ⟨1, 2, 3, none⟩ =
      PredictRaw (fun _ _ _ => ([] : List ℚ)) 1
        { freshBoostLearner with gbm_ := some [3] } ⟨1, 2, 3, none⟩ :=
  ⟨fun _ _ _ _ => rfl, rfl, rfl, rfl,
   save_load_roundtrip_predictions (fun _ _ _ => ([] : List ℚ))
     (fun _ _ _ _ => rfl) { freshBoostLearner with gbm_ := some [3] } [3] rfl
     _ rfl _ rfl 1 0 ⟨1, 2, 3, none⟩⟩

/-- C5: `LoadModel` copies the `ModelParameters` block verbatim (no
probability-to-margin conversion on reload) and `SaveModel` writes it back
verbatim, so loading a saved model and immediately saving it again yields
an identical block, reserved padding included; the conversion is applied
exactly in `InitModel`, which maps `base_score` through the objective's
`ProbToMargin`. -/
theorem load_save_param_identity
    (p : ModelParam) (o b : String) (g : List Int) (rest : List StreamItem)
    (F' : BoostLearner)
    (hF : LoadModel freshBoostLearner
      (.blob p :: .str o :: .str b :: .gbm g :: rest) = .ok F') :
    F'.mparam = p ∧
    SaveModel F' = some [.blob p, .str o, .str b, .gbm g] ∧
    ∀ (ptm : String → ℚ → ℚ) (ginit : List Int) (L : BoostLearner),
      (InitModel ptm ginit L).mparam.base_score =
        ptm L.name_obj_ L.mparam.base_score := by
  unfold LoadModel at hF
  injection hF with hF
  subst hF
  refine ⟨rfl, rfl, ?_⟩
  intro ptm ginit L
  unfold InitModel
  by_cases h : L.gbm_.isSome <;> simp [h]

theorem load_save_param_identity_witness :
    LoadModel freshBoostLearner
        [.blob ⟨1/3, 4, 2, 7 :: List.replicate 31 0⟩, .str "binary:logistic",
         .str "gbtree", .gbm [1, 2]] =
      .ok { mparam := ⟨1/3, 4, 2, 7 :: List.replicate 31 0⟩,
            name_obj_ := "binary:logistic", name_gbm_ := "gbtree",
            gbm_ := some [1, 2], cache_ := [] } ∧
    SaveModel { mparam := ⟨1/3, 4, 2, 7 :: List.replicate 31 0⟩,
                name_obj_ := "binary:logistic", name_gbm_ := "gbtree",
                gbm_ := some [1, 2], cache_ := ([] : List CacheEntry) } =
      some [.blob ⟨1/3, 4, 2, 7 :: List.replicate 31 0⟩, .str "binary:logistic",
            .str "gbtree", .gbm [1, 2]] :=
  ⟨rfl,
   (load_save_param_identity ⟨1/3, 4, 2, 7 :: List.replicate 31 0⟩
      "binary:logistic" "gbtree" [1, 2] []
      { mparam := ⟨1/3, 4, 2, 7 :: List.replicate 31 0⟩,
        name_obj_ := "binary:logistic", name_gbm_ := "gbtree",
        gbm_ := some [1, 2], cache_ := [] } rfl).2.1⟩

/-- C3: in `UpdateOneIter` (legacy learner), a gradient vector whose length
equals the training row count produces exactly one `DoBoost` call for group
0; a gradient vector of length `rows * K` (with `num_class = K` booster
groups) is split into exactly `K` contiguous slices of length `rows` — group
`g` occupying `[g*rows, (g+1)*rows)` — boosted in group order `0..K-1`, each
against the same feature data and the matrix's buffer offset. -/
theorem updateOneIter_group_split
    (self : Nat) (cache : List CacheEntry) (train : MatRef) (K : Nat)
    (grad hess : List ℚ) (hrows : 0 < train.num_row)
    (hlen : hess.length = grad.length) :
    (grad.length = train.num_row →
      UpdateOneIterCalls self cache train K grad hess =
        .ok [⟨grad, hess, 0, FindBufferOffset self cache train⟩]) ∧
    (grad.length = train.num_row * K →
      UpdateOneIterCalls self cache train K grad hess =
        .ok ((List.range K).map fun g =>
          ⟨(grad.drop (g * train.num_row)).take train.num_row,
           (hess.drop (g * train.num_row)).take train.num_row, g,
           FindBufferOffset self cache train⟩)) := by
  constructor
  · intro h1
    simp only [UpdateOneIterCalls]
    rw [if_pos h1]
  · intro hK
    by_cases h1 : grad.length = train.num_row
    · have hK1 : K = 1 :=
        Nat.eq_of_mul_eq_mul_left hrows
          ((hK.symm.trans h1).trans (Nat.mul_one _).symm)
      subst hK1
      have hg : grad.take train.num_row = grad := by
        rw [← h1]; exact List.take_length grad
      have hh : hess.take train.num_row = hess := by
        rw [← h1, ← hlen]; exact List.take_length hess
      simp only [UpdateOneIterCalls]
      rw [if_pos h1]
      have hr1 : List.range 1 = [0] := rfl
      rw [hr1]
      simp [hg, hh]
    · simp only [UpdateOneIterCalls]
      rw [if_neg h1, if_pos hK]

theorem updateOneIter_group_split_witness :
    0 < (⟨1, 2, 3, none⟩ : MatRef).num_row ∧
    ([(5 : ℚ), 6, 7, 8].length = [(1 : ℚ), 2, 3, 4].length) ∧
    ([(1 : ℚ), 2, 3, 4].length = (⟨1, 2, 3, none⟩ : MatRef).num_row * 2) ∧
    UpdateOneIterCalls 0 [] ⟨1, 2, 3, none⟩ 2 [(1 : ℚ), 2, 3, 4] [(5 : ℚ), 6, 7, 8] =
      .ok [⟨[(1 : ℚ), 2], [(5 : ℚ), 6], 0, -1⟩, ⟨[(3 : ℚ), 4], [(7 : ℚ), 8], 1, -1⟩] :=
  ⟨by decide, rfl, rfl,
   (updateOneIter_group_split 0 [] ⟨1, 2, 3, none⟩ 2 [(1 : ℚ), 2, 3, 4]
      [(5 : ℚ), 6, 7, 8] (by decide) rfl).2 rfl⟩

/-- C7: `UpdateInteract` with action `"remove"`, applied after a non-remove
`UpdateInteract` grew one ensemble increment, discards exactly that most
recently added member and returns right after the initial re-prediction
loop — no gradient computation and no boost happen — so a normal prediction
call afterwards returns the predictions of the state before the removed
increment was added. -/
theorem updateInteract_remove_reverts
    (env : Nat → MatRef) (mp : Nat → MatRef → Nat → ℚ) (pt : List ℚ → List ℚ)
    (nm nm' : Nat) (st₀ st st' : RegRankLearner) (a : String)
    (evs₁ evs₂ : List InteractEvent)
    (hgrow : UpdateInteract env nm st₀ a = .ok (st, evs₁))
    (ha : a ≠ "remove")
    (hrem : UpdateInteract env nm' st "remove" = .ok (st', evs₂)) :
    st'.ensemble = st₀.ensemble ∧
    InteractEvent.getGradient ∉ evs₂ ∧
    InteractEvent.doBoost ∉ evs₂ ∧
    ∀ mat, RegRankPredict mp pt st' mat = RegRankPredict mp pt st₀ mat := by
  obtain ⟨sid, mpar, nobj, ens, cach⟩ := st₀
  simp only [UpdateInteract] at hgrow
  split at hgrow
  · injection hgrow with hgrow
    injection hgrow with hst hevs
    subst hst
    simp only [UpdateInteract] at hrem
    split at hrem
    · injection hrem with hrem
      injection hrem with hst' hevs'
      subst hst'
      subst hevs'
      refine ⟨?_, ?_, ?_, fun mat => ?_⟩
      · simp [DelteBooster]
      · simp
      · simp
      · simp [RegRankPredict, RegRankPredictRaw, gbmPredictRow, DelteBooster]
    · contradiction
  · cases hgrow

theorem updateInteract_remove_reverts_witness :
    UpdateInteract (fun _ => ⟨0, 0, 0, none⟩) 5
        ⟨0, ⟨1/2, -1, 0, 0, 0, []⟩, "reg:linear", [], []⟩ "grow" =
      .ok (⟨0, ⟨1/2, -1, 0, 0, 0, []⟩, "reg:linear", [5], []⟩,
           [.getGradient, .doBoost]) ∧
    ("grow" : String) ≠ "remove" ∧
    UpdateInteract (fun _ => ⟨0, 0, 0, none⟩) 9
        ⟨0, ⟨1/2, -1, 0, 0, 0, []⟩, "reg:linear", [5], []⟩ "remove" =
      .ok (⟨0, ⟨1/2, -1, 0, 0, 0, []⟩, "reg:linear", [], []⟩, []) ∧
    RegRankPredict (fun _ _ _ => (1 : ℚ)) id
        ⟨0, ⟨1/2, -1, 0, 0, 0, []⟩, "reg:linear", [], []⟩ ⟨3, 2, 1, none⟩ =
      RegRankPredict (fun _ _ _ => (1 : ℚ)) id
        ⟨0, ⟨1/2, -1, 0, 0, 0, []⟩, "reg:linear", [], []⟩ ⟨3, 2, 1, none⟩ :=
  ⟨rfl, by decide, rfl,
   (updateInteract_remove_reverts (fun _ => ⟨0, 0, 0, none⟩)
      (fun _ _ _ => (1 : ℚ)) id 5 9
      ⟨0, ⟨1/2, -1, 0, 0, 0, []⟩, "reg:linear", [], []⟩
      ⟨0, ⟨1/2, -1, 0, 0, 0, []⟩, "reg:linear", [5], []⟩
      ⟨0, ⟨1/2, -1, 0, 0, 0, []⟩, "reg:linear", [], []⟩
      "grow" [.getGradient, .doBoost] [] rfl (by decide) rfl).2.2.2
     ⟨3, 2, 1, none⟩⟩

/-- C8: `Evaluate(matrix, metric)` substitutes the objective's default
metric when `metric = "auto"`; a (possibly substituted) metric name the
evaluation registry does not recognize yields the `("", 0)` sentinel instead
of failing; a recognized metric yields its name paired with the computed
score on the transformed predictions. -/
theorem evaluate_metric_dispatch
    (mp : Nat → MatRef → Nat → ℚ) (pt : List ℚ → List ℚ)
    (evalCreate : String → Option (List ℚ → MatRef → ℚ))
    (defaultMetric : String) (st : RegRankLearner) (mat : MatRef)
    (metric em : String)
    (hem : em = if metric = "auto" then defaultMetric else metric) :
    (metric = "auto" → em = defaultMetric) ∧
    (evalCreate em = none →
      RegRankEvaluate mp pt evalCreate defaultMetric st mat metric = ("", 0)) ∧
    (∀ ev, evalCreate em = some ev →
      RegRankEvaluate mp pt evalCreate defaultMetric st mat metric =
        (em, ev (RegRankPredict mp pt st mat) mat)) := by
  subst hem
  refine ⟨fun h => by rw [if_pos h], ?_, ?_⟩
  · intro hnone
    simp only [RegRankEvaluate]
    rw [hnone]
  · intro ev hev
    simp only [RegRankEvaluate]
    rw [hev]

theorem evaluate_metric_dispatch_witness :
    (("rmse" : String) = if ("auto" : String) = "auto" then "rmse" else "auto") ∧
    ((fun s => if s = "rmse" then some (fun _ _ => (2 : ℚ)) else none) "rmse" =
      some (fun (_ : List ℚ) (_ : MatRef) => (2 : ℚ))) ∧
    RegRankEvaluate (fun _ _ _ => (1 : ℚ)) id
        (fun s => if s = "rmse" then some (fun _ _ => (2 : ℚ)) else none) "rmse"
        ⟨0, ⟨1/2, -1, 0, 0, 0, []⟩, "reg:linear", [], []⟩ ⟨3, 2, 1, none⟩
        "auto" =
      ("rmse",
       (fun (_ : List ℚ) (_ : MatRef) => (2 : ℚ))
         (RegRankPredict (fun _ _ _ => (1 : ℚ)) id
           ⟨0, ⟨1/2, -1, 0, 0, 0, []⟩, "reg:linear", [], []⟩ ⟨3, 2, 1, none⟩)
         ⟨3, 2, 1, none⟩) :=
  ⟨rfl, rfl,
   (evaluate_metric_dispatch (fun _ _ _ => (1 : ℚ)) id
      (fun s => if s = "rmse" then some (fun _ _ => (2 : ℚ)) else none) "rmse"
      ⟨0, ⟨1/2, -1, 0, 0, 0, []⟩, "reg:linear", [], []⟩ ⟨3, 2, 1, none⟩
      "auto" "rmse" rfl).2.2 (fun _ _ => (2 : ℚ)) rfl⟩

/-- C9: `InitTrainer` overrides the configured objective name to
`"multi:softmax"` exactly when `num_class` is nonzero and the name is
neither `"multi:softmax"` nor `"multi:softprob"`; otherwise the configured
name is used unchanged when the objective is instantiated. -/
theorem initTrainer_objective_override (st : RegRankLearner) :
    ((st.mparam.num_class ≠ 0 ∧ st.name_obj_ ≠ "multi:softmax" ∧
        st.name_obj_ ≠ "multi:softprob") →
      (InitTrainer st).name_obj_ = "multi:softmax") ∧
    ((st.mparam.num_class = 0 ∨ st.name_obj_ = "multi:softmax" ∨
        st.name_obj_ = "multi:softprob") →
      (InitTrainer st).name_obj_ = st.name_obj_) := by
  constructor
  · rintro ⟨h1, h2, h3⟩
    simp [InitTrainer, InitTrainerObjName, h1, h2, h3]
  · intro h
    rcases h with h | h | h <;> simp [InitTrainer, InitTrainerObjName, h]

theorem initTrainer_objective_override_witness :
    ((⟨0, ⟨1/2, -1, 0, 3, 0, []⟩, "reg:linear", [], []⟩ :
        RegRankLearner).mparam.num_class ≠ 0 ∧
      (⟨0, ⟨1/2, -1, 0, 3, 0, []⟩, "reg:linear", [], []⟩ :
        RegRankLearner).name_obj_ ≠ "multi:softmax" ∧
      (⟨0, ⟨1/2, -1, 0, 3, 0, []⟩, "reg:linear", [], []⟩ :
        RegRankLearner).name_obj_ ≠ "multi:softprob") ∧
    (InitTrainer ⟨0, ⟨1/2, -1, 0, 3, 0, []⟩, "reg:linear", [], []⟩).name_obj_ =
      "multi:softmax" :=
  ⟨by refine ⟨by decide, by decide, by decide⟩,
   (initTrainer_objective_override
      ⟨0, ⟨1/2, -1, 0, 3, 0, []⟩, "reg:linear", [], []⟩).1
     ⟨by decide, by decide, by decide⟩⟩

/-- C10: `ModelParam::AdjustBase`, when the (possibly defaulted) loss type
is 1, 2 or 3, requires `0 < base_score < 1`: under that precondition the
"sigmoid range constrain" assertion cannot fire and `base_score` is replaced
by `-log(1/base_score - 1)` (and without it, the assertion fires); for the
defaulted loss type 0 (`reg:linear` default) `base_score` is left
unchanged. -/
theorem adjustBase_sigmoid_range (obj : String) (p : RegRankModelParam ℝ)
    (lt : Int) (hlt : lt = adjustedLossType obj p) :
    ((lt = 1 ∨ lt = 2 ∨ lt = 3) → 0 < p.base_score → p.base_score < 1 →
      AdjustBase obj p =
        .ok { p with loss_type := lt, base_score := -Real.log (1 / p.base_score - 1) }) ∧
    ((lt = 1 ∨ lt = 2 ∨ lt = 3) → ¬(0 < p.base_score ∧ p.base_score < 1) →
      AdjustBase obj p = .error "sigmoid range constrain") ∧
    (lt = 0 →
      AdjustBase obj p = .ok { p with loss_type := lt } ∧
      ({ p with loss_type := lt } : RegRankModelParam ℝ).base_score =
        p.base_score) := by
  subst hlt
  refine ⟨?_, ?_, ?_⟩
  · intro h123 h0 h1
    unfold AdjustBase
    rw [if_pos h123, if_pos ⟨h0, h1⟩]
  · intro h123 hno
    unfold AdjustBase
    rw [if_pos h123, if_neg hno]
  · intro h0
    have hne : ¬(adjustedLossType obj p = 1 ∨ adjustedLossType obj p = 2 ∨
        adjustedLossType obj p = 3) := by
      rw [h0]; decide
    constructor
    · unfold AdjustBase
      rw [if_neg hne]
    · rfl

theorem adjustBase_sigmoid_range_witness :
    ((1 : Int) = adjustedLossType "binary:logistic" ⟨1/2, -1, 0, 0, 0, []⟩) ∧
    ((1 : Int) = 1 ∨ (1 : Int) = 2 ∨ (1 : Int) = 3) ∧
    (0 : ℝ) < 1/2 ∧ ((1/2 : ℝ) < 1) ∧
    AdjustBase "binary:logistic" ⟨1/2, -1, 0, 0, 0, []⟩ =
      .ok ⟨-Real.log (1 / (1/2 : ℝ) - 1), 1, 0, 0, 0, []⟩ := by
  have hlt : (1 : Int) = adjustedLossType "binary:logistic" ⟨1/2, -1, 0, 0, 0, []⟩ := by decide
  have h := (adjustBase_sigmoid_range "binary:logistic" ⟨1/2, -1, 0, 0, 0, []⟩ 1 hlt).1
    (Or.inl rfl) one_half_pos one_half_lt_one
  exact ⟨hlt, Or.inl rfl, one_half_pos, one_half_lt_one, h⟩

end XGB
